import Mathlib

/-!
Verification of the zstd-wasm session layer (`src/lib.rs`).

Byte sequences are modelled as `List Nat`; the compression level is an `Int`
(the Rust `i32`; only order comparisons are performed on it, so no wrapping
arithmetic is involved). Fallible operations return `Except ZError α`,
mirroring the Rust `Result<_, JsValue>`; the string payloads the Rust code
formats into `JsValue` are classified by the spec's error taxonomy.

The zstd codec itself (the `zstd` crate) is not part of the repository's
sources; its operations are modelled from the spec, which treats the codec
as an opaque lossless coder with a chunk-boundary-insensitive streaming
encoder.  Those definitions carry a doc comment starting
`Modelled from the spec:`.  The session layer and the facade functions are
translated from `src/lib.rs` directly.
-/

namespace ZstdWasm

/-- The spec's error taxonomy (§7).  The Rust code surfaces each of these as a
`JsValue` string (e.g. `"Compressor has been finalized"` for
`alreadyFinalized`); the constructors classify those strings. -/
inductive ZError where
  | invalidLevel
  | encoderInitError (msg : String)
  | decoderInitError (msg : String)
  | writeError (msg : String)
  | readError (msg : String)
  | finalizeError (msg : String)
  | alreadyFinalized
deriving DecidableEq, Repr

/-- `const DEFAULT_COMPRESSION_LEVEL: i32 = 6` (src/lib.rs:11). -/
def DEFAULT_COMPRESSION_LEVEL : Int := 6

/-- `const MIN_COMPRESSION_LEVEL: i32 = 1` (src/lib.rs:12). -/
def MIN_COMPRESSION_LEVEL : Int := 1

/-- `const MAX_COMPRESSION_LEVEL: i32 = 22` (src/lib.rs:13). -/
def MAX_COMPRESSION_LEVEL : Int := 22

/-- Modelled from the spec: the codec's one-shot compressor
`zstd::stream::encode_all` (the `zstd` crate is not under `src/`).  The spec
only requires the codec to be a lossless coder producing one self-contained
frame ("the self-contained compressed representation of one logical input,
including any trailer/checksum needed to know decompression is complete"), so
the model frame records the level, the input length (the "trailer/checksum"
that lets the decoder know it is complete) and the input bytes. -/
def encode_all (data : List Nat) (level : Int) : List Nat :=
  level.toNat :: data.length :: data

/-- Modelled from the spec: the codec's one-shot decompressor
`zstd::stream::decode_all`.  It accepts exactly the frames the model encoder
produces; any other byte sequence is a corrupt stream (`none`). -/
def decode_all (c : List Nat) : Option (List Nat) :=
  match c with
  | _lvl :: n :: rest => if rest.length = n then some rest else none
  | _ => none

/-- Modelled from the spec: the codec's one-shot dictionary compressor (the
encoder opened with a prepared dictionary, written in full and finished, as
`compress_with_dict` drives it).  The dictionary is "used verbatim (no
training step)" and "must be identical on the compress and decompress side
for defined results", so the model frame embeds the dictionary bytes. -/
def encode_all_with_dict (data dict : List Nat) (level : Int) : List Nat :=
  level.toNat :: dict.length :: (dict ++ data.length :: data)

/-- Modelled from the spec: the codec's one-shot dictionary decompressor (the
decoder opened with a prepared dictionary and read to completion).  It accepts
exactly the frames of `encode_all_with_dict` built with the same dictionary. -/
def decode_all_with_dict (c dict : List Nat) : Option (List Nat) :=
  match c with
  | _lvl :: dl :: rest =>
    if dl = dict.length ∧ rest.take dict.length = dict then
      match rest.drop dict.length with
      | n :: d => if d.length = n then some d else none
      | [] => none
    else none
  | _ => none

/-- `compress` (src/lib.rs:22-34): validates the level (defaulting to 6 when
the argument is omitted) before touching the codec, then delegates to the
one-shot codec. -/
def compress (data : List Nat) (level : Option Int) : Except ZError (List Nat) :=
  let compression_level := level.getD DEFAULT_COMPRESSION_LEVEL
  if compression_level < MIN_COMPRESSION_LEVEL ∨ compression_level > MAX_COMPRESSION_LEVEL then
    Except.error ZError.invalidLevel
  else
    Except.ok (encode_all data compression_level)

/-- `compress_with_dict` (src/lib.rs:44-75): same level validation, then an
encoder bound to the dictionary is created, all of `data` written and the
encoder finished. -/
def compress_with_dict (data dict : List Nat) (level : Option Int) :
    Except ZError (List Nat) :=
  let compression_level := level.getD DEFAULT_COMPRESSION_LEVEL
  if compression_level < MIN_COMPRESSION_LEVEL ∨ compression_level > MAX_COMPRESSION_LEVEL then
    Except.error ZError.invalidLevel
  else
    Except.ok (encode_all_with_dict data dict compression_level)

/-- `decompress` (src/lib.rs:83-86): delegates to the one-shot codec; a
stream the codec rejects becomes a "Decompression failed" error. -/
def decompress (compressed_data : List Nat) : Except ZError (List Nat) :=
  match decode_all compressed_data with
  | some d => Except.ok d
  | none => Except.error (ZError.readError "Decompression failed")

/-- `decompress_with_dict` (src/lib.rs:95-114): a decoder bound to the
dictionary is created and read to completion. -/
def decompress_with_dict (data dict : List Nat) : Except ZError (List Nat) :=
  match decode_all_with_dict data dict with
  | some d => Except.ok d
  | none => Except.error (ZError.readError "read failed")

/-- Modelled from the spec: `Zstd::compress_bound` delegates to
`zstd::zstd_safe::compress_bound` (not under `src/`), "the codec's documented
worst-case expansion formula", which for zstd is
`srcSize + (srcSize >> 8) + (srcSize < 128 KiB ? ((128 KiB) - srcSize) >> 11 : 0)`,
here over unbounded naturals (the wasm `usize` wraparound near `usize::MAX`
is outside the model). -/
def compress_bound (input_size : Nat) : Nat :=
  input_size + input_size / 256 +
    (if input_size < 131072 then (131072 - input_size) / 2048 else 0)

/-- `Zstd::compression_ratio` (src/lib.rs:172-177).  The Rust function works
on `f64`; the model uses `ℚ`.  Every division the claims evaluate is exact,
where IEEE-754 double division agrees with rational division. -/
def compression_ratio (original_size compressed_size : Nat) : ℚ :=
  if original_size = 0 then 0
  else (compressed_size : ℚ) / (original_size : ℚ)

/-- `Zstd::space_savings` (src/lib.rs:181-186), same numeric model. -/
def space_savings (original_size compressed_size : Nat) : ℚ :=
  if original_size = 0 then 0
  else (1 - (compressed_size : ℚ) / (original_size : ℚ)) * 100

/-- Modelled from the spec: the codec's streaming encoder handle
(`zstd::stream::write::Encoder` writing into an in-memory `Vec<u8>`; the
`zstd` crate is not under `src/`).  The spec requires the codec to be
"chunk-boundary-insensitive" (writes "may produce zero or more bytes of
compressed output internally (buffered, not yet observable to the caller)"),
so the handle's state is the level and the raw bytes written so far; `finish`
emits the frame for the whole buffered input. -/
structure Encoder where
  level : Int
  buf : List Nat
deriving DecidableEq, Repr

/-- Modelled from the spec: `Encoder::new(Vec::new(), level)`. -/
def Encoder.new (level : Int) : Except String Encoder :=
  Except.ok ⟨level, []⟩

/-- Modelled from the spec: `Encoder::write_all(data)` — appends the chunk's
bytes to the encoder's input stream; the in-memory sink cannot fail. -/
def Encoder.write_all (e : Encoder) (data : List Nat) : Except String Encoder :=
  Except.ok { e with buf := e.buf ++ data }

/-- Modelled from the spec: `Encoder::finish()` — signals end-of-input and
returns the complete frame for everything written, byte-identical to the
one-shot encoder over the concatenation. -/
def Encoder.finish (e : Encoder) : Except String (List Nat) :=
  Except.ok (encode_all e.buf e.level)

/-- Modelled from the spec: the codec's streaming decoder handle
(`zstd::stream::read::Decoder` over the complete compressed buffer).
Opening validates the frame; `read` then serves the decoded bytes from the
current position, "up to `max_output_size` decompressed bytes" per call. -/
structure Decoder where
  decoded : List Nat
  pos : Nat
deriving DecidableEq, Repr

/-- Modelled from the spec: `Decoder::new(cursor)` over the full compressed
input; fails on a stream the codec rejects. -/
def Decoder.new (compressed : List Nat) : Except String Decoder :=
  match decode_all compressed with
  | some d => Except.ok ⟨d, 0⟩
  | none => Except.error "invalid frame"

/-- Modelled from the spec: `decoder.read(&mut buffer)` with a buffer of `n`
bytes: yields up to `n` decompressed bytes and advances the decoder. -/
def Decoder.read (d : Decoder) (n : Nat) : Except String (List Nat × Decoder) :=
  let chunk := (d.decoded.drop d.pos).take n
  Except.ok (chunk, ⟨d.decoded, d.pos + chunk.length⟩)

/-- Modelled from the spec: `decoder.read_to_end(&mut result)`: yields all
remaining decompressed bytes. -/
def Decoder.read_to_end (d : Decoder) : Except String (List Nat × Decoder) :=
  Except.ok (d.decoded.drop d.pos, ⟨d.decoded, d.decoded.length⟩)

/-- `ZstdCompressor` (src/lib.rs:192-194): `encoder: Option<Encoder>`;
`none` is the finalized state. -/
structure ZstdCompressor where
  encoder : Option Encoder
deriving DecidableEq, Repr

/-- `ZstdCompressor::new` (src/lib.rs:200-216): validates the level exactly
as `compress` does, then opens an encoder over an empty in-memory sink. -/
def ZstdCompressor.new (level : Option Int) : Except ZError ZstdCompressor :=
  let compression_level := level.getD DEFAULT_COMPRESSION_LEVEL
  if compression_level < MIN_COMPRESSION_LEVEL ∨ compression_level > MAX_COMPRESSION_LEVEL then
    Except.error ZError.invalidLevel
  else
    match Encoder.new compression_level with
    | Except.ok e => Except.ok ⟨some e⟩
    | Except.error m => Except.error (ZError.encoderInitError m)

/-- `ZstdCompressor::compress_chunk` (src/lib.rs:219-229).  The method
mutates `&mut self`; the model returns the result together with the session
state after the call. -/
def ZstdCompressor.compress_chunk (s : ZstdCompressor) (data : List Nat) :
    Except ZError Unit × ZstdCompressor :=
  match s.encoder with
  | some e =>
    match e.write_all data with
    | Except.ok e' => (Except.ok (), ⟨some e'⟩)
    | Except.error m => (Except.error (ZError.writeError m), ⟨some e⟩)
  | none => (Except.error ZError.alreadyFinalized, ⟨none⟩)

/-- `ZstdCompressor::finalize` (src/lib.rs:232-240): `self.encoder.take()`
removes the encoder from the session first, so the post-state has no encoder
whatever `finish` then returns. -/
def ZstdCompressor.finalize (s : ZstdCompressor) :
    Except ZError (List Nat) × ZstdCompressor :=
  match s.encoder with
  | some e =>
    (match e.finish with
     | Except.ok out => Except.ok out
     | Except.error m => Except.error (ZError.finalizeError m),
     ⟨none⟩)
  | none => (Except.error ZError.alreadyFinalized, ⟨none⟩)

/-- `ZstdDecompressor` (src/lib.rs:245-253): `decoder: Option<Decoder>`;
`none` is the finalized state. -/
structure ZstdDecompressor where
  decoder : Option Decoder
deriving DecidableEq, Repr

/-- `ZstdDecompressor::new` (src/lib.rs:259-270): opens a decoder over the
entire compressed buffer. -/
def ZstdDecompressor.new (compressed_data : List Nat) : Except ZError ZstdDecompressor :=
  match Decoder.new compressed_data with
  | Except.ok d => Except.ok ⟨some d⟩
  | Except.error m => Except.error (ZError.decoderInitError m)

/-- `ZstdDecompressor::decompress_chunk` (src/lib.rs:273-292): allocates a
buffer of `max_output_size` bytes, reads into it and truncates to the number
of bytes read; the decoder stays in the session. -/
def ZstdDecompressor.decompress_chunk (s : ZstdDecompressor) (max_output_size : Nat) :
    Except ZError (List Nat) × ZstdDecompressor :=
  match s.decoder with
  | some d =>
    match d.read max_output_size with
    | Except.ok (chunk, d') => (Except.ok chunk, ⟨some d'⟩)
    | Except.error m => (Except.error (ZError.readError m), ⟨some d⟩)
  | none => (Except.error ZError.alreadyFinalized, ⟨none⟩)

/-- `ZstdDecompressor::finalize` (src/lib.rs:295-306): `self.decoder.take()`
removes the decoder from the session first, then reads it to the end; the
post-state has no decoder whatever the read returns. -/
def ZstdDecompressor.finalize (s : ZstdDecompressor) :
    Except ZError (List Nat) × ZstdDecompressor :=
  match s.decoder with
  | some d =>
    (match d.read_to_end with
     | Except.ok (out, _) => Except.ok out
     | Except.error m => Except.error (ZError.readError m),
     ⟨none⟩)
  | none => (Except.error ZError.alreadyFinalized, ⟨none⟩)

/-- Feeding a list of chunks to a compression session in order, stopping at
the first error (as a caller of `compress_chunk` would). -/
def feedAll (s : ZstdCompressor) : List (List Nat) → Except ZError ZstdCompressor
  | [] => Except.ok s
  | c :: rest =>
    match s.compress_chunk c with
    | (Except.ok _, s') => feedAll s' rest
    | (Except.error e, _) => Except.error e

/-- The caller loop of the spec: call `decompress_chunk` with the given
`max_output_size` arguments in order, concatenating the results, and stop as
soon as a zero-length result is observed.  Returns the concatenation, whether
a zero-length result was observed, and the final session state. -/
def chunkRun : ZstdDecompressor → List Nat → List Nat × Bool × ZstdDecompressor
  | s, [] => ([], false, s)
  | s, n :: rest =>
    match s.decompress_chunk n with
    | (Except.ok chunk, s') =>
      if chunk.length = 0 then (chunk, true, s')
      else
        let r := chunkRun s' rest
        (chunk ++ r.1, r.2.1, r.2.2)
    | (Except.error _, s') => ([], false, s')

/-! ## Helper lemmas -/

lemma compress_eq (data : List Nat) (level : Option Int) :
    compress data level =
      if level.getD 6 < 1 ∨ 22 < level.getD 6 then Except.error ZError.invalidLevel
      else Except.ok (encode_all data (level.getD 6)) := by
  simp only [compress, DEFAULT_COMPRESSION_LEVEL, MIN_COMPRESSION_LEVEL,
    MAX_COMPRESSION_LEVEL, gt_iff_lt]

lemma compress_with_dict_eq (data dict : List Nat) (level : Option Int) :
    compress_with_dict data dict level =
      if level.getD 6 < 1 ∨ 22 < level.getD 6 then Except.error ZError.invalidLevel
      else Except.ok (encode_all_with_dict data dict (level.getD 6)) := by
  simp only [compress_with_dict, DEFAULT_COMPRESSION_LEVEL, MIN_COMPRESSION_LEVEL,
    MAX_COMPRESSION_LEVEL, gt_iff_lt]

lemma compressor_new_eq (level : Option Int) :
    ZstdCompressor.new level =
      if level.getD 6 < 1 ∨ 22 < level.getD 6 then Except.error ZError.invalidLevel
      else Except.ok ⟨some ⟨level.getD 6, []⟩⟩ := by
  simp only [ZstdCompressor.new, Encoder.new, DEFAULT_COMPRESSION_LEVEL,
    MIN_COMPRESSION_LEVEL, MAX_COMPRESSION_LEVEL, gt_iff_lt]

lemma decode_encode (d : List Nat) (level : Int) :
    decode_all (encode_all d level) = some d := by
  simp [decode_all, encode_all]

lemma decode_encode_dict (d dict : List Nat) (level : Int) :
    decode_all_with_dict (encode_all_with_dict d dict level) dict = some d := by
  simp [decode_all_with_dict, encode_all_with_dict, List.take_left, List.drop_left]

/-! ## Claim theorems -/

/-- C4: for every byte sequence `d` and every level in `[1, 22]`,
`decompress (compress d level)` succeeds and returns exactly `d`. -/
theorem compress_decompress_roundtrip (d : List Nat) (level : Int)
    (h1 : 1 ≤ level) (h2 : level ≤ 22) :
    ∃ c, compress d (some level) = Except.ok c ∧ decompress c = Except.ok d := by
  refine ⟨encode_all d level, ?_, ?_⟩
  · rw [compress_eq]
    simp only [Option.getD_some]
    rw [if_neg (by omega)]
  · simp [decompress, decode_encode]

/-- C4 witness: the round trip at `d = [10, 20]`, `level = 22`. -/
theorem compress_decompress_roundtrip_witness :
    ∃ c, compress [10, 20] (some 22) = Except.ok c ∧
      decompress c = Except.ok [10, 20] :=
  compress_decompress_roundtrip [10, 20] 22 (by decide) (by decide)

/-- C9: for every byte sequence `d`, dictionary `dict` and level in `[1, 22]`,
`decompress_with_dict (compress_with_dict d dict level) dict` succeeds and
returns exactly `d`. -/
theorem dict_roundtrip (d dict : List Nat) (level : Int)
    (h1 : 1 ≤ level) (h2 : level ≤ 22) :
    ∃ c, compress_with_dict d dict (some level) = Except.ok c ∧
      decompress_with_dict c dict = Except.ok d := by
  refine ⟨encode_all_with_dict d dict level, ?_, ?_⟩
  · rw [compress_with_dict_eq]
    simp only [Option.getD_some]
    rw [if_neg (by omega)]
  · simp [decompress_with_dict, decode_encode_dict]

/-- C9 witness: the dictionary round trip at `d = [7]`, `dict = [1, 2]`,
`level = 1`. -/
theorem dict_roundtrip_witness :
    ∃ c, compress_with_dict [7] [1, 2] (some 1) = Except.ok c ∧
      decompress_with_dict c [1, 2] = Except.ok [7] :=
  dict_roundtrip [7] [1, 2] 1 (by decide) (by decide)

/-- C6: `compress` and `ZstdCompressor.new` return the invalid-level error if
and only if the effective level (the argument, or the default 6 when it is
omitted) lies outside `[1, 22]`; in-range levels reach the codec (the `ok`
results show the codec's output); an omitted level means level 6 and is
accepted.  In `compress` and `ZstdCompressor.new` the range check precedes
the codec call, so an out-of-range level never reaches the codec. -/
theorem level_validation (data : List Nat) (level : Option Int) :
    (compress data level = Except.error ZError.invalidLevel ↔
      (level.getD 6 < 1 ∨ 22 < level.getD 6)) ∧
    (ZstdCompressor.new level = Except.error ZError.invalidLevel ↔
      (level.getD 6 < 1 ∨ 22 < level.getD 6)) ∧
    (¬(level.getD 6 < 1 ∨ 22 < level.getD 6) →
      compress data level = Except.ok (encode_all data (level.getD 6)) ∧
      ZstdCompressor.new level = Except.ok ⟨some ⟨level.getD 6, []⟩⟩) ∧
    compress data none = Except.ok (encode_all data 6) ∧
    ZstdCompressor.new none = Except.ok ⟨some ⟨6, []⟩⟩ := by
  by_cases h : (level.getD 6 < 1 ∨ 22 < level.getD 6) <;>
    simp [compress_eq, compressor_new_eq, h]

/-- C7: for every input size `n`, `compress_bound n ≥ n`. -/
theorem compress_bound_ge (n : Nat) : n ≤ compress_bound n := by
  unfold compress_bound
  split <;> omega

/-- C8: `compression_ratio` is `compressed / original` with the degenerate
rule `0` at `original = 0`, `space_savings` is `(1 - compressed / original) *
100` with the same rule, and at `(1000, 250)` they evaluate to `1/4 = 0.25`
and `75`. -/
theorem ratio_savings_spec :
    (∀ original compressed : Nat, original ≠ 0 →
      compression_ratio original compressed = (compressed : ℚ) / (original : ℚ) ∧
      space_savings original compressed =
        (1 - (compressed : ℚ) / (original : ℚ)) * 100) ∧
    (∀ compressed : Nat,
      compression_ratio 0 compressed = 0 ∧ space_savings 0 compressed = 0) ∧
    compression_ratio 1000 250 = 1 / 4 ∧
    space_savings 1000 250 = 75 := by
  refine ⟨?_, ?_, ?_, ?_⟩
  · intro o c ho
    simp [compression_ratio, space_savings, ho]
  · intro c
    simp [compression_ratio, space_savings]
  · norm_num [compression_ratio]
  · norm_num [space_savings]

lemma feedAll_ok (e : Encoder) :
    ∀ chunks : List (List Nat),
      feedAll ⟨some e⟩ chunks = Except.ok ⟨some ⟨e.level, e.buf ++ chunks.flatten⟩⟩
  | [] => by simp [feedAll]
  | c :: rest => by
    have ih := feedAll_ok ⟨e.level, e.buf ++ c⟩ rest
    simp only [feedAll, ZstdCompressor.compress_chunk, Encoder.write_all] at ih ⊢
    simpa [List.append_assoc] using ih

/-- C1: feeding any partition of `d` into ordered chunks through a
compression session at a level in `[1, 22]` and finalizing yields bytes
identical to the one-shot `compress` over the concatenation. -/
theorem streaming_compress_equiv (chunks : List (List Nat)) (level : Int)
    (h1 : 1 ≤ level) (h2 : level ≤ 22) :
    ∃ s s' out,
      ZstdCompressor.new (some level) = Except.ok s ∧
      feedAll s chunks = Except.ok s' ∧
      (s'.finalize).1 = Except.ok out ∧
      compress chunks.flatten (some level) = Except.ok out := by
  refine ⟨⟨some ⟨level, []⟩⟩, ⟨some ⟨level, [] ++ chunks.flatten⟩⟩,
    encode_all chunks.flatten level, ?_, ?_, ?_, ?_⟩
  · rw [compressor_new_eq]
    simp only [Option.getD_some]
    rw [if_neg (by omega)]
  · exact feedAll_ok ⟨level, []⟩ chunks
  · simp [ZstdCompressor.finalize, Encoder.finish]
  · rw [compress_eq]
    simp only [Option.getD_some]
    rw [if_neg (by omega)]

/-- C1 witness: the equivalence at chunks `[[1], [2, 3]]`, level 3. -/
theorem streaming_compress_equiv_witness :
    ∃ s s' out,
      ZstdCompressor.new (some 3) = Except.ok s ∧
      feedAll s [[1], [2, 3]] = Except.ok s' ∧
      (s'.finalize).1 = Except.ok out ∧
      compress ([[1], [2, 3]] : List (List Nat)).flatten (some 3) = Except.ok out :=
  streaming_compress_equiv [[1], [2, 3]] 3 (by decide) (by decide)

/-- C3: after a finalize call that succeeds on either session type, every
subsequent operation on that session returns the already-finalized error
(and hence no data). -/
theorem finalize_once (s : ZstdCompressor) (t : ZstdDecompressor)
    (outC outD data : List Nat) (m : Nat)
    (hs : (s.finalize).1 = Except.ok outC)
    (ht : (t.finalize).1 = Except.ok outD) :
    ((s.finalize).2.compress_chunk data).1 = Except.error ZError.alreadyFinalized ∧
    ((s.finalize).2.finalize).1 = Except.error ZError.alreadyFinalized ∧
    ((t.finalize).2.decompress_chunk m).1 = Except.error ZError.alreadyFinalized ∧
    ((t.finalize).2.finalize).1 = Except.error ZError.alreadyFinalized := by
  obtain ⟨se⟩ := s
  obtain ⟨td⟩ := t
  cases se <;> cases td <;>
    simp [ZstdCompressor.finalize, ZstdDecompressor.finalize,
      ZstdCompressor.compress_chunk, ZstdDecompressor.decompress_chunk,
      Encoder.finish, Decoder.read_to_end]

/-- C3 witness: finalize-once at concrete sessions holding an encoder with
buffered `[1]` at level 6 and a decoder over decoded `[2]`. -/
theorem finalize_once_witness :
    (((⟨some ⟨6, [1]⟩⟩ : ZstdCompressor).finalize).2.compress_chunk [9]).1 =
      Except.error ZError.alreadyFinalized ∧
    (((⟨some ⟨6, [1]⟩⟩ : ZstdCompressor).finalize).2.finalize).1 =
      Except.error ZError.alreadyFinalized ∧
    (((⟨some ⟨[2], 0⟩⟩ : ZstdDecompressor).finalize).2.decompress_chunk 4).1 =
      Except.error ZError.alreadyFinalized ∧
    (((⟨some ⟨[2], 0⟩⟩ : ZstdDecompressor).finalize).2.finalize).1 =
      Except.error ZError.alreadyFinalized :=
  finalize_once ⟨some ⟨6, [1]⟩⟩ ⟨some ⟨[2], 0⟩⟩ [6, 1, 1] [2] [9] 4 rfl rfl

/-- C10: on both session types `finalize` removes the encoder/decoder handle
from the session before running the codec's finish/read-to-end step (in the
model, both branches of `finalize` pair the result with the handle-free
session), so after any `finalize` call — whatever result it returns — the
session holds no handle and every subsequent operation returns the
already-finalized error. -/
theorem finalize_not_rolled_back (s : ZstdCompressor) (t : ZstdDecompressor)
    (data : List Nat) (m : Nat) :
    (s.finalize).2 = ⟨none⟩ ∧ (t.finalize).2 = ⟨none⟩ ∧
    ((s.finalize).2.compress_chunk data).1 = Except.error ZError.alreadyFinalized ∧
    ((s.finalize).2.finalize).1 = Except.error ZError.alreadyFinalized ∧
    ((t.finalize).2.decompress_chunk m).1 = Except.error ZError.alreadyFinalized ∧
    ((t.finalize).2.finalize).1 = Except.error ZError.alreadyFinalized := by
  obtain ⟨se⟩ := s
  obtain ⟨td⟩ := t
  cases se <;> cases td <;>
    simp [ZstdCompressor.finalize, ZstdDecompressor.finalize,
      ZstdCompressor.compress_chunk, ZstdDecompressor.decompress_chunk,
      Encoder.finish, Decoder.read_to_end]

/-- C5: on an open decompression session, `decompress_chunk` succeeds, returns
at most `max_output_size` bytes, leaves the session open, and — for a
positive `max_output_size` — returns a zero-length chunk exactly when the
decoder has reached end-of-stream; at end-of-stream it can be called again
and keeps yielding empty results without changing the session.  (For
`max_output_size = 0` a zero-length result does not imply end-of-stream; see
the counterexample.) -/
theorem decompress_chunk_bounded (s : ZstdDecompressor) (d : Decoder)
    (hs : s.decoder = some d) (m : Nat) :
    ∃ chunk s',
      s.decompress_chunk m = (Except.ok chunk, s') ∧
      chunk.length ≤ m ∧
      s'.decoder.isSome = true ∧
      (0 < m → (chunk = [] ↔ d.decoded.length ≤ d.pos)) ∧
      (d.decoded.length ≤ d.pos → chunk = [] ∧ s' = s) := by
  refine ⟨(d.decoded.drop d.pos).take m,
    ⟨some ⟨d.decoded, d.pos + ((d.decoded.drop d.pos).take m).length⟩⟩,
    ?_, ?_, rfl, ?_, ?_⟩
  · simp [ZstdDecompressor.decompress_chunk, hs, Decoder.read]
  · exact List.length_take_le m _
  · intro hm
    rw [List.take_eq_nil_iff, List.drop_eq_nil_iff]
    omega
  · intro h
    have hdrop : d.decoded.drop d.pos = [] := List.drop_eq_nil_iff.mpr h
    refine ⟨by simp [hdrop], ?_⟩
    simp only [hdrop, List.take_nil, List.length_nil, Nat.add_zero]
    exact congrArg ZstdDecompressor.mk hs.symm

/-- C5 witness: the chunk bound at a session holding decoded `[5]` at
position 0, with `max_output_size = 2`. -/
theorem decompress_chunk_bounded_witness :
    ∃ chunk s',
      (⟨some ⟨[5], 0⟩⟩ : ZstdDecompressor).decompress_chunk 2 = (Except.ok chunk, s') ∧
      chunk.length ≤ 2 ∧
      s'.decoder.isSome = true ∧
      (0 < 2 → (chunk = [] ↔ ([5] : List Nat).length ≤ 0)) ∧
      (([5] : List Nat).length ≤ 0 → chunk = [] ∧ s' = ⟨some ⟨[5], 0⟩⟩) :=
  decompress_chunk_bounded ⟨some ⟨[5], 0⟩⟩ ⟨[5], 0⟩ rfl 2

/-- C5 counterexample: with `max_output_size = 0` the call returns a
zero-length chunk although the decoder (decoded `[1]`, position 0) has not
reached end-of-stream — a subsequent call with `max_output_size = 1` still
yields `[1]`.  So "a zero-length result means the decoder has reached
end-of-stream" fails for `max_output_size = 0`. -/
theorem zero_size_chunk_not_eos :
    ((⟨some ⟨[1], 0⟩⟩ : ZstdDecompressor).decompress_chunk 0).1 = Except.ok [] ∧
    ¬ (([1] : List Nat).length ≤ 0) ∧
    ((((⟨some ⟨[1], 0⟩⟩ : ZstdDecompressor).decompress_chunk 0).2).decompress_chunk 1).1 =
      Except.ok [1] :=
  ⟨rfl, by decide, rfl⟩

lemma take_append_drop_len {α : Type} (n : Nat) (l : List α) :
    l.take n ++ l.drop (l.take n).length = l := by
  induction l generalizing n with
  | nil => simp
  | cons a l ih =>
    cases n with
    | zero => simp
    | succ n =>
      show a :: (l.take n ++ l.drop (l.take n).length) = a :: l
      exact congrArg (a :: ·) (ih n)

lemma chunkRun_done (sizes : List Nat) :
    ∀ (dec : List Nat) (pos : Nat), (∀ n ∈ sizes, 0 < n) →
      (chunkRun ⟨some ⟨dec, pos⟩⟩ sizes).2.1 = true →
      (chunkRun ⟨some ⟨dec, pos⟩⟩ sizes).1 = dec.drop pos := by
  induction sizes with
  | nil =>
    intro dec pos _ hdone
    simp [chunkRun] at hdone
  | cons n rest ih =>
    intro dec pos hpos hdone
    have hn : 0 < n := hpos n (List.mem_cons_self n rest)
    have hrest : ∀ k ∈ rest, 0 < k := fun k hk => hpos k (List.mem_cons_of_mem n hk)
    have step : chunkRun ⟨some ⟨dec, pos⟩⟩ (n :: rest) =
        (if ((dec.drop pos).take n).length = 0 then
          ((dec.drop pos).take n, true,
            ⟨some ⟨dec, pos + ((dec.drop pos).take n).length⟩⟩)
        else
          let r := chunkRun ⟨some ⟨dec, pos + ((dec.drop pos).take n).length⟩⟩ rest
          ((dec.drop pos).take n ++ r.1, r.2.1, r.2.2)) := rfl
    by_cases hlen : ((dec.drop pos).take n).length = 0
    · have htake : (dec.drop pos).take n = [] := List.length_eq_zero.mp hlen
      have hdrop : dec.drop pos = [] := by
        rcases List.take_eq_nil_iff.mp htake with h0 | h0
        · omega
        · exact h0
      rw [step, if_pos hlen, hdrop]
      simp [htake]
    · rw [step, if_neg hlen] at hdone ⊢
      simp only at hdone ⊢
      rw [ih dec (pos + ((dec.drop pos).take n).length) hrest hdone]
      rw [← List.drop_drop]
      exact take_append_drop_len n (dec.drop pos)

/-- C2 (for positive chunk-size requests): for every compressed buffer the
session accepts, running the caller loop — `decompress_chunk` with any
sequence of positive `max_output_size` arguments, concatenating, until a
zero-length result is observed — yields exactly the one-shot `decompress`
result, and a single `finalize` from the start also equals it. -/
theorem streaming_decompress_equiv (c : List Nat) (s : ZstdDecompressor)
    (sizes : List Nat)
    (hpos : ∀ n ∈ sizes, 0 < n)
    (hopen : ZstdDecompressor.new c = Except.ok s)
    (hdone : (chunkRun s sizes).2.1 = true) :
    decompress c = Except.ok ((chunkRun s sizes).1) ∧
    (s.finalize).1 = decompress c := by
  cases hdec : decode_all c with
  | none => simp [ZstdDecompressor.new, Decoder.new, hdec] at hopen
  | some d =>
    have hs : s = ⟨some ⟨d, 0⟩⟩ := by
      simp [ZstdDecompressor.new, Decoder.new, hdec] at hopen
      exact hopen.symm
    subst hs
    refine ⟨?_, ?_⟩
    · rw [chunkRun_done sizes d 0 hpos hdone]
      simp [decompress, hdec]
    · simp [decompress, hdec, ZstdDecompressor.finalize, Decoder.read_to_end]

/-- C2 witness: the equivalence at the frame `[3, 1, 1]` (decoding to `[1]`)
with the chunk sizes `[1, 1]`. -/
theorem streaming_decompress_equiv_witness :
    decompress [3, 1, 1] = Except.ok ((chunkRun ⟨some ⟨[1], 0⟩⟩ [1, 1]).1) ∧
    ((⟨some ⟨[1], 0⟩⟩ : ZstdDecompressor).finalize).1 = decompress [3, 1, 1] :=
  streaming_decompress_equiv [3, 1, 1] ⟨some ⟨[1], 0⟩⟩ [1, 1] (by decide) rfl rfl

/-- C2 counterexample: on the frame `[3, 1, 1]` (decoding to `[1]`), the
caller loop with the size sequence `[0]` observes a zero-length result at
once, so its concatenation is `[]`, while `decompress` returns `[1]` — the
claim fails when a `max_output_size` of `0` is allowed. -/
theorem zero_size_chunk_loop_diverges :
    ZstdDecompressor.new [3, 1, 1] = Except.ok ⟨some ⟨[1], 0⟩⟩ ∧
    (chunkRun ⟨some ⟨[1], 0⟩⟩ [0]).2.1 = true ∧
    (chunkRun ⟨some ⟨[1], 0⟩⟩ [0]).1 = ([] : List Nat) ∧
    decompress [3, 1, 1] = Except.ok [1] ∧
    ([] : List Nat) ≠ [1] :=
  ⟨rfl, rfl, rfl, rfl, by decide⟩

end ZstdWasm
